import Mathlib

/-!
Shallow embedding of `plot_eeg_ecg.py` (QUASAR EEG+ECG plotter).

The script classifies CSV columns into Time / EEG / ECG / CommonMode /
Ignored roles by regex heuristics, optionally downsamples the table,
builds Plotly series (EEG raw on the primary axis; ECG and common-mode
coerced to numeric and divided by 1000 on the secondary axis) and writes
an HTML file, aborting with `SystemExit` when no series was built.

Strings are modelled as `List Char` after lowering (the Python code
matches with `re.I`); numeric cells are rationals, and a cell that
`pd.to_numeric(..., errors='coerce')` cannot parse is the marker
`Cell.na` (pandas NaN).
-/

set_option autoImplicit false

namespace PlotEegEcg

/-- Python regex word character for `\b`: alphanumeric or underscore. -/
def isWordChar (c : Char) : Bool := c.isAlphanum || c == '_'

/-- Lowercased character list of a string; models `re.I` matching by
lowering both pattern and subject. -/
def lc (s : String) : List Char := s.toList.map Char.toLower

/-- Whether `t` is a literal prefix of `s`. -/
def tokAt : List Char → List Char → Bool
  | [], _ => true
  | _ :: _, [] => false
  | a :: ts, b :: cs => a == b && tokAt ts cs

/-- Whether the list is empty or starts with a non-word character:
the state of a `\b` boundary just after a word character. -/
def headNotWord : List Char → Bool
  | [] => true
  | c :: _ => !isWordChar c

/-- Whether the list is empty or ends with a non-word character:
the state of a `\b` boundary just before a word character. -/
def lastNotWord (l : List Char) : Bool := headNotWord l.reverse

/-- Occurrence of the literal token `t` in `s` as a regex whole word
(`re.search(r'\b t \b', s)` for a token made of word characters):
some position `i` where `t` matches and both sides are string edges or
non-word characters. -/
def wholeWordB (t s : List Char) : Bool :=
  (List.range (s.length + 1)).any fun i =>
    lastNotWord (s.take i) && tokAt t (s.drop i) && headNotWord ((s.drop i).drop t.length)

/-- Plain substring occurrence (Python `in`, or a regex with no `\b`). -/
def substrOcc (t s : List Char) : Bool :=
  (List.range (s.length + 1)).any fun i => tokAt t (s.drop i)

/-- Case-insensitive whole-word occurrence of token `t` in column name `c`. -/
def wwTok (t c : String) : Bool := wholeWordB (lc t) (lc c)

/-- EEG channel names from assignment (source list `EEG_NAMES`). -/
def EEG_NAMES : List String :=
  ["Fz", "Cz", "P3", "C3", "F3", "F4", "C4", "P4", "Fp1", "Fp2",
   "T3", "T4", "T5", "T6", "O1", "O2", "F7", "F8", "A1", "A2", "Pz"]

/-- Alternatives of the ECG regex `\b(x1|x2|leog|reog)\b`. -/
def ecgToks : List String := ["x1", "x2", "leog", "reog"]

/-- Alternatives of the ignore regex
`\b(x3|trigger|time_?offset|adc_?status|adc_?sequence|event|comments)\b`,
with each optional underscore expanded into its two concrete forms. -/
def ignoreToks : List String :=
  ["x3", "trigger", "time_offset", "timeoffset", "adc_status", "adcstatus",
   "adc_sequence", "adcsequence", "event", "comments"]

/-- A table cell: a numeric value, or a non-numeric/missing cell that
numeric coercion turns into NaN. -/
inductive Cell where
  | num : ℚ → Cell
  | na : Cell
deriving DecidableEq

/-- A named column of cells. -/
structure Column where
  name : String
  cells : List Cell
deriving DecidableEq

/-- A table: an ordered sequence of named columns (`pd.DataFrame`). -/
structure DataFrame where
  cols : List Column
deriving DecidableEq

/-- Column names in table order (`df.columns`). -/
def colNames (df : DataFrame) : List String := df.cols.map Column.name

/-- Whether a column has numeric dtype: every cell numeric
(`df.select_dtypes(include=[np.number])` membership). -/
def isNumericCol (col : Column) : Bool :=
  col.cells.all fun x => match x with | .num _ => true | .na => false

/-- Names of the numeric-dtype columns, in table order. -/
def numericNames (df : DataFrame) : List String :=
  (df.cols.filter isNumericCol).map Column.name

/-- Cells of the column named `c` (`df[c]`; first match on duplicate names). -/
def getCol (df : DataFrame) (c : String) : List Cell :=
  ((df.cols.find? fun col => col.name == c).map Column.cells).getD []

/-- Whether a column name contains the substring "time", case-insensitively
(the one substring — not whole-word — check of the classifier). -/
def timeLike (c : String) : Bool := substrOcc (lc "time") (lc c)

/-- Source `find_time_col`: the first column whose name contains "time"
(any case), else the first column; `none` only on a zero-column table
(where the Python code would raise `IndexError`). -/
def find_time_col (df : DataFrame) : Option String :=
  match (colNames df).find? timeLike with
  | some c => some c
  | none => (colNames df).head?

/-- Order-preserving duplicate removal keeping first occurrences
(`list(dict.fromkeys(found))`), with an accumulator of names already kept. -/
def dedupFirstAux (seen : List String) : List String → List String
  | [] => []
  | x :: xs =>
    if x ∈ seen then dedupFirstAux seen xs
    else x :: dedupFirstAux (x :: seen) xs

/-- Order-preserving duplicate removal keeping first occurrences. -/
def dedupFirst (l : List String) : List String := dedupFirstAux [] l

/-- Source `find_eeg_cols`: for each EEG name in the fixed order, every
column whose name whole-word-matches it, flattened, duplicates removed
keeping first occurrences. -/
def find_eeg_cols (df : DataFrame) : List String :=
  dedupFirst ((EEG_NAMES.map fun n => (colNames df).filter fun c => wwTok n c).flatten)

/-- Source `find_ecg_cols`: columns matching `\b(x1|x2|leog|reog)\b`, `re.I`. -/
def find_ecg_cols (df : DataFrame) : List String :=
  (colNames df).filter fun c => ecgToks.any fun t => wwTok t c

/-- Source `find_cm_cols`: columns matching `\bcm\b|common[_ ]?mode`, `re.I`
(the phrase alternative has no word boundaries). -/
def find_cm_cols (df : DataFrame) : List String :=
  (colNames df).filter fun c =>
    wwTok "cm" c || substrOcc (lc "commonmode") (lc c) ||
      substrOcc (lc "common_mode") (lc c) || substrOcc (lc "common mode") (lc c)

/-- Source `find_ignore_cols`: columns matching the ignore regex. -/
def find_ignore_cols (df : DataFrame) : List String :=
  (colNames df).filter fun c => ignoreToks.any fun t => wwTok t c

/-- Main, line 68: `[c for c in find_eeg_cols(df) if c not in find_ignore_cols(df)]`. -/
def eegPruned (df : DataFrame) : List String :=
  (find_eeg_cols df).filter fun c => !decide (c ∈ find_ignore_cols df)

/-- Main, line 69: ECG columns minus ignored columns. -/
def ecgPruned (df : DataFrame) : List String :=
  (find_ecg_cols df).filter fun c => !decide (c ∈ find_ignore_cols df)

/-- Main, line 70: common-mode columns minus ignored columns. -/
def cmPruned (df : DataFrame) : List String :=
  (find_cm_cols df).filter fun c => !decide (c ∈ find_ignore_cols df)

/-- Main, lines 73-76 fallback body: every numeric-dtype column not in
`set([time_col] + ecg_cols + cm_cols + find_ignore_cols(df))`. -/
def fallbackEEG (df : DataFrame) (tc : String) : List String :=
  (numericNames df).filter fun c =>
    !(decide (c = tc) || decide (c ∈ ecgPruned df) || decide (c ∈ cmPruned df) ||
      decide (c ∈ find_ignore_cols df))

/-- Main, lines 68 and 73-76: the final EEG group, with the fallback fired
exactly when the pruned name-pattern group is empty (`if not eeg_cols`). -/
def eegFinal (df : DataFrame) (tc : String) : List String :=
  if (eegPruned df).isEmpty then fallbackEEG df tc else eegPruned df

/-- Elements at indices `0, d, 2d, ...` of a list (`xs[::d]` for `d ≥ 1`). -/
def everyNth {α : Type} (d : Nat) : List α → List α
  | [] => []
  | x :: xs => x :: everyNth d (xs.drop (d - 1))
termination_by l => l.length
decreasing_by simp only [List.length_cons, List.length_drop]; omega

/-- Main, lines 84-86: when the downsample factor exceeds 1 keep every
`d`-th row starting at row 0 and renumber (`df.iloc[::d].reset_index(drop=True)`,
positional indices in this model); otherwise the table is untouched.
The factor is an `Int` because `argparse` with `type=int` accepts any
integer and the code only tests `args.downsample > 1`. -/
def downsampleDf (d : Int) (df : DataFrame) : DataFrame :=
  if d > 1 then ⟨df.cols.map fun col => ⟨col.name, everyNth d.toNat col.cells⟩⟩ else df

/-- Numeric coercion followed by the millivolt conversion, cellwise:
`pd.to_numeric(df[c], errors='coerce') / 1000.0`. An unparseable cell
becomes NaN (`Cell.na`) rather than raising, and NaN/1000 is NaN. -/
def scaleMilli (x : Cell) : Cell :=
  match x with
  | .num q => .num (q / 1000)
  | .na => .na

/-- One Plotly trace: label, x data, y data, which y-axis, dash style. -/
structure Series where
  label : String
  xs : List Cell
  ys : List Cell
  secondary : Bool
  dashed : Bool
deriving DecidableEq

/-- Main, lines 92-117: the traces added to the figure, in order — EEG
columns raw on the primary axis, then ECG columns coerced and divided by
1000 with label suffix " (mV)" on the secondary axis, then common-mode
columns likewise with suffix " (mV, CM)" and a dotted line. -/
def buildSeries (df : DataFrame) (tc : String) (eeg ecg cm : List String) : List Series :=
  (eeg.map fun c => ⟨c, getCol df tc, getCol df c, false, false⟩) ++
    (ecg.map fun c =>
      ⟨c ++ " (mV)", getCol df tc, (getCol df c).map scaleMilli, true, false⟩) ++
    (cm.map fun c =>
      ⟨c ++ " (mV, CM)", getCol df tc, (getCol df c).map scaleMilli, true, true⟩)

/-- Main, lines 67-153, from the loaded table onward: classify, downsample,
build the traces; `raise SystemExit("No plottable channels found.")` when no
trace was added (non-zero exit, nothing written), else write the figure
(modelled as returning the trace list; exit status 0). A zero-column table
would raise `IndexError` inside `find_time_col` (unreachable from
`pd.read_csv`, which refuses empty input). -/
def main_run (df : DataFrame) (d : Int) : Except String (List Series) :=
  match find_time_col df with
  | none => .error "IndexError"
  | some tc =>
    let series := buildSeries (downsampleDf d df) tc (eegFinal df tc) (ecgPruned df) (cmPruned df)
    if series.isEmpty then .error "No plottable channels found."
    else .ok series

/-- Whole-word occurrence in the SPEC's words (glossary: "bounded by
non-alphanumeric characters or string edges") — differs from the regex
`\b` of the source, for which underscore is a word character. Used only
to compare the spec's matching rule with the code's. -/
def specAlnumBounded (t s : List Char) : Bool :=
  (List.range (s.length + 1)).any fun i =>
    (s.take i = [] || !((s.take i).getLast?.getD ' ').isAlphanum) &&
      tokAt t (s.drop i) &&
      (((s.drop i).drop t.length) = [] || !(((s.drop i).drop t.length).headD ' ').isAlphanum)

/-- Row `i` of a table, as the `i`-th cell of each column in column order
(`none` past the end of a column). Observer used to state what
downsampling keeps. -/
def row (df : DataFrame) (i : Nat) : List (Option Cell) :=
  df.cols.map fun col => col.cells[i]?

/-- Occurrence of token `t` in `s` bounded on both sides by string edges or
non-word characters, where the word characters are the alphanumerics and
underscore. Stated in the amended claim's words, to be compared with the
code's matcher `wholeWordB`. -/
def OccursWordBounded (t s : List Char) : Prop :=
  ∃ pre post, s = pre ++ t ++ post ∧
    (∀ x ∈ pre.getLast?, isWordChar x = false) ∧
    (∀ x ∈ post.head?, isWordChar x = false)

/-! ### Helper lemmas -/

theorem tokAt_iff (t : List Char) : ∀ s : List Char, tokAt t s = true ↔ ∃ post, s = t ++ post := by
  induction t with
  | nil =>
    intro s
    simp [tokAt]
  | cons a ts ih =>
    intro s
    cases s with
    | nil =>
      simp [tokAt]
    | cons b cs =>
      simp only [tokAt, Bool.and_eq_true, beq_iff_eq, ih cs, List.cons_append]
      constructor
      · rintro ⟨rfl, post, rfl⟩
        exact ⟨post, rfl⟩
      · rintro ⟨post, heq⟩
        obtain ⟨h1, h2⟩ := List.cons.inj heq
        exact ⟨h1.symm, post, h2⟩

theorem wholeWordB_iff (t s : List Char) :
    wholeWordB t s = true ↔
      ∃ pre post, s = pre ++ t ++ post ∧ lastNotWord pre = true ∧ headNotWord post = true := by
  unfold wholeWordB
  rw [List.any_eq_true]
  constructor
  · rintro ⟨i, _, hP⟩
    simp only [Bool.and_eq_true] at hP
    obtain ⟨⟨hpre, htok⟩, hpost⟩ := hP
    obtain ⟨post, hdec⟩ := (tokAt_iff t (s.drop i)).mp htok
    refine ⟨s.take i, post, ?_, hpre, ?_⟩
    · conv_lhs => rw [← List.take_append_drop i s]
      rw [hdec, List.append_assoc]
    · rwa [hdec, List.drop_left] at hpost
  · rintro ⟨pre, post, rfl, hpre, hpost⟩
    refine ⟨pre.length, ?_, ?_⟩
    · rw [List.mem_range]
      simp only [List.length_append]
      omega
    · rw [List.append_assoc, List.take_left, List.drop_left, List.drop_left]
      simp only [Bool.and_eq_true]
      exact ⟨⟨hpre, (tokAt_iff t (t ++ post)).mpr ⟨post, rfl⟩⟩, hpost⟩

theorem substrOcc_iff (t s : List Char) :
    substrOcc t s = true ↔ ∃ pre post, s = pre ++ t ++ post := by
  unfold substrOcc
  rw [List.any_eq_true]
  constructor
  · rintro ⟨i, _, hP⟩
    obtain ⟨post, hdec⟩ := (tokAt_iff t (s.drop i)).mp hP
    refine ⟨s.take i, post, ?_⟩
    conv_lhs => rw [← List.take_append_drop i s]
    rw [hdec, List.append_assoc]
  · rintro ⟨pre, post, rfl⟩
    refine ⟨pre.length, ?_, ?_⟩
    · rw [List.mem_range]
      simp only [List.length_append]
      omega
    · rw [List.append_assoc, List.drop_left]
      exact (tokAt_iff t (t ++ post)).mpr ⟨post, rfl⟩

theorem mem_dedupFirstAux (x : String) :
    ∀ (l seen : List String), x ∈ dedupFirstAux seen l ↔ x ∈ l ∧ x ∉ seen := by
  intro l
  induction l with
  | nil =>
    intro seen
    simp [dedupFirstAux]
  | cons y ys ih =>
    intro seen
    by_cases hy : y ∈ seen
    · rw [dedupFirstAux, if_pos hy, ih seen, List.mem_cons]
      constructor
      · rintro ⟨hmem, hns⟩
        exact ⟨Or.inr hmem, hns⟩
      · rintro ⟨hmem | hmem, hns⟩
        · exact absurd hy (hmem ▸ hns)
        · exact ⟨hmem, hns⟩
    · rw [dedupFirstAux, if_neg hy, List.mem_cons, ih (y :: seen), List.mem_cons, List.mem_cons]
      constructor
      · rintro (rfl | ⟨hmem, hns⟩)
        · exact ⟨Or.inl rfl, hy⟩
        · exact ⟨Or.inr hmem, fun hx => hns (Or.inr hx)⟩
      · rintro ⟨rfl | hmem, hns⟩
        · exact Or.inl rfl
        · by_cases hxy : x = y
          · exact Or.inl hxy
          · exact Or.inr ⟨hmem, fun hc => (hc.elim hxy (fun h => hns h))⟩

theorem mem_dedupFirst (x : String) (l : List String) : x ∈ dedupFirst l ↔ x ∈ l := by
  rw [dedupFirst, mem_dedupFirstAux]
  simp

theorem find?_decomp {α : Type} (p : α → Bool) :
    ∀ (l : List α) (a : α), l.find? p = some a →
      ∃ pre post, l = pre ++ a :: post ∧ p a = true ∧ ∀ x ∈ pre, p x = false := by
  intro l
  induction l with
  | nil =>
    intro a h
    simp [List.find?] at h
  | cons y ys ih =>
    intro a h
    rw [List.find?] at h
    by_cases hy : p y = true
    · rw [hy] at h
      simp only [Option.some.injEq] at h
      exact ⟨[], ys, by simp [h], h ▸ hy, by simp⟩
    · rw [Bool.not_eq_true] at hy
      rw [hy] at h
      obtain ⟨pre, post, heq, hpa, hpre⟩ := ih a h
      refine ⟨y :: pre, post, by rw [heq]; rfl, hpa, ?_⟩
      intro x hx
      rcases List.mem_cons.mp hx with rfl | hx
      · exact hy
      · exact hpre x hx

theorem everyNth_nil {α : Type} (d : Nat) : everyNth d ([] : List α) = [] := by
  rw [everyNth]

theorem everyNth_cons {α : Type} (d : Nat) (x : α) (xs : List α) :
    everyNth d (x :: xs) = x :: everyNth d (xs.drop (d - 1)) := by
  rw [everyNth]

theorem length_everyNth {α : Type} (d : Nat) (hd : 1 ≤ d) :
    ∀ l : List α, (everyNth d l).length = (l.length + d - 1) / d := by
  have key : ∀ (n : Nat) (l : List α), l.length = n →
      (everyNth d l).length = (l.length + d - 1) / d := by
    intro n
    induction n using Nat.strong_induction_on with
    | _ n ih =>
      intro l hn
      cases l with
      | nil =>
        rw [everyNth_nil]
        simp only [List.length_nil, Nat.zero_add]
        exact (Nat.div_eq_of_lt (by omega)).symm
      | cons x xs =>
        rw [everyNth_cons, List.length_cons]
        have hdrop : (xs.drop (d - 1)).length = xs.length - (d - 1) := List.length_drop _ _
        simp only [List.length_cons] at hn
        have hlt : (xs.drop (d - 1)).length < n := by omega
        rw [ih _ hlt _ rfl, hdrop]
        simp only [List.length_cons]
        rcases Nat.lt_or_ge xs.length (d - 1) with hc | hc
        · have h1 : xs.length - (d - 1) = 0 := by omega
          have h2 : xs.length + 1 + d - 1 = xs.length + d := by omega
          rw [h1, h2, Nat.add_div_right _ (by omega)]
          have h3 : xs.length / d = 0 := Nat.div_eq_of_lt (by omega)
          have h4 : (0 + d - 1) / d = 0 := Nat.div_eq_of_lt (by omega)
          rw [h3, h4]
        · have h1 : xs.length - (d - 1) + d - 1 = xs.length := by omega
          have h2 : xs.length + 1 + d - 1 = xs.length + d := by omega
          rw [h1, h2, Nat.add_div_right _ (by omega)]
  intro l
  exact key l.length l rfl

theorem getElem?_everyNth {α : Type} (d : Nat) (hd : 1 ≤ d) :
    ∀ (l : List α) (i : Nat), (everyNth d l)[i]? = l[i * d]? := by
  have key : ∀ (n : Nat) (l : List α), l.length = n →
      ∀ i : Nat, (everyNth d l)[i]? = l[i * d]? := by
    intro n
    induction n using Nat.strong_induction_on with
    | _ n ih =>
      intro l hn i
      cases l with
      | nil =>
        rw [everyNth_nil]
        simp
      | cons x xs =>
        rw [everyNth_cons]
        cases i with
        | zero =>
          simp
        | succ j =>
          simp only [List.length_cons] at hn
          have hlt : (xs.drop (d - 1)).length < n := by
            rw [List.length_drop]
            omega
          rw [List.getElem?_cons_succ, ih _ hlt _ rfl j, List.getElem?_drop]
          have harith : (j + 1) * d = (d - 1 + j * d) + 1 := by
            have h5 : (j + 1) * d = j * d + d := by ring
            omega
          rw [harith, List.getElem?_cons_succ]
  intro l
  exact key l.length l rfl

theorem headNotWord_iff (l : List Char) :
    headNotWord l = true ↔ ∀ x ∈ l.head?, isWordChar x = false := by
  cases l with
  | nil => simp [headNotWord]
  | cons c cs => simp [headNotWord]

theorem lastNotWord_iff (l : List Char) :
    lastNotWord l = true ↔ ∀ x ∈ l.getLast?, isWordChar x = false := by
  rw [lastNotWord, headNotWord_iff, List.head?_reverse]

theorem wholeWordB_occ (t s : List Char) :
    wholeWordB t s = true ↔ OccursWordBounded t s := by
  rw [wholeWordB_iff, OccursWordBounded]
  constructor
  · rintro ⟨pre, post, rfl, hpre, hpost⟩
    exact ⟨pre, post, rfl, (lastNotWord_iff pre).mp hpre, (headNotWord_iff post).mp hpost⟩
  · rintro ⟨pre, post, rfl, hpre, hpost⟩
    exact ⟨pre, post, rfl, (lastNotWord_iff pre).mpr hpre, (headNotWord_iff post).mpr hpost⟩

theorem mem_find_eeg_cols (df : DataFrame) (c : String) :
    c ∈ find_eeg_cols df ↔ c ∈ colNames df ∧ ∃ t ∈ EEG_NAMES, wwTok t c = true := by
  rw [find_eeg_cols, mem_dedupFirst, List.mem_flatten]
  constructor
  · rintro ⟨l, hl, hcl⟩
    obtain ⟨n, hn, rfl⟩ := List.mem_map.mp hl
    obtain ⟨hmem, hw⟩ := List.mem_filter.mp hcl
    exact ⟨hmem, n, hn, hw⟩
  · rintro ⟨hmem, n, hn, hw⟩
    exact ⟨(colNames df).filter (fun x => wwTok n x), List.mem_map.mpr ⟨n, hn, rfl⟩,
      List.mem_filter.mpr ⟨hmem, hw⟩⟩

/-! ### Claim theorems -/

/-- C10: for every downsample factor `d ≤ 1` — including 0 and negative
integers — the downsampling step is a no-op: the table is left completely
unchanged (and `downsampleDf` is a total function, so no error arises);
rows are dropped only in the `d > 1` branch. -/
theorem downsample_nonpositive_noop (df : DataFrame) (d : Int) (hd : d ≤ 1) :
    downsampleDf d df = df := by
  rw [downsampleDf, if_neg (by omega)]

/-- Witness for `downsample_nonpositive_noop` at factor `-2`. -/
theorem downsample_nonpositive_noop_witness :
    ((-2 : Int) ≤ 1) ∧
      downsampleDf (-2) ⟨[⟨"Fz", [Cell.num 5, Cell.na]⟩]⟩ = ⟨[⟨"Fz", [Cell.num 5, Cell.na]⟩]⟩ :=
  ⟨by decide, downsample_nonpositive_noop ⟨[⟨"Fz", [Cell.num 5, Cell.na]⟩]⟩ (-2) (by decide)⟩

/-- C6: downsampling with factor 1 leaves the table identical; with an
integer factor `d > 1` on a table whose columns all have `N` rows it keeps
the column names, every column ends up with `ceil(N/d) = (N + d - 1) / d`
rows, and row `i` of the result is row `i * d` of the original (indices
renumbered contiguously, which is positional in this model). -/
theorem downsample_spec (df : DataFrame) (d : Int) (N : Nat) (hd : 1 < d)
    (hN : ∀ col ∈ df.cols, col.cells.length = N) :
    downsampleDf 1 df = df ∧
    colNames (downsampleDf d df) = colNames df ∧
    (∀ col ∈ (downsampleDf d df).cols, col.cells.length = (N + d.toNat - 1) / d.toNat) ∧
    (∀ i : Nat, row (downsampleDf d df) i = row df (i * d.toNat)) := by
  have hd1 : 1 ≤ d.toNat := by omega
  have hds : downsampleDf d df = ⟨df.cols.map fun col => ⟨col.name, everyNth d.toNat col.cells⟩⟩ := by
    rw [downsampleDf, if_pos hd]
  refine ⟨?_, ?_, ?_, ?_⟩
  · rw [downsampleDf, if_neg (by omega)]
  · rw [hds, colNames, colNames, List.map_map]
    rfl
  · intro col hcol
    rw [hds] at hcol
    obtain ⟨orig, horig, rfl⟩ := List.mem_map.mp hcol
    simp only
    rw [length_everyNth d.toNat hd1, hN orig horig]
  · intro i
    rw [hds, row, row, List.map_map]
    apply List.map_congr_left
    intro col _
    simp only [Function.comp_apply]
    exact getElem?_everyNth d.toNat hd1 col.cells i

/-- Witness for `downsample_spec`: a 1-column, 5-row table at factor 2
(`ceil(5/2) = 3` rows kept). -/
theorem downsample_spec_witness :
    ((1 : Int) < 2) ∧
      (∀ col ∈ (DataFrame.mk [⟨"Fz", [Cell.num 0, Cell.num 1, Cell.num 2, Cell.num 3,
        Cell.num 4]⟩]).cols, col.cells.length = 5) ∧
      (downsampleDf 1 ⟨[⟨"Fz", [Cell.num 0, Cell.num 1, Cell.num 2, Cell.num 3, Cell.num 4]⟩]⟩ =
          ⟨[⟨"Fz", [Cell.num 0, Cell.num 1, Cell.num 2, Cell.num 3, Cell.num 4]⟩]⟩ ∧
        colNames (downsampleDf 2 ⟨[⟨"Fz", [Cell.num 0, Cell.num 1, Cell.num 2, Cell.num 3,
          Cell.num 4]⟩]⟩) = colNames ⟨[⟨"Fz", [Cell.num 0, Cell.num 1, Cell.num 2, Cell.num 3,
          Cell.num 4]⟩]⟩ ∧
        (∀ col ∈ (downsampleDf 2 ⟨[⟨"Fz", [Cell.num 0, Cell.num 1, Cell.num 2, Cell.num 3,
          Cell.num 4]⟩]⟩).cols, col.cells.length = (5 + (2 : Int).toNat - 1) / (2 : Int).toNat) ∧
        (∀ i : Nat, row (downsampleDf 2 ⟨[⟨"Fz", [Cell.num 0, Cell.num 1, Cell.num 2, Cell.num 3,
          Cell.num 4]⟩]⟩) i = row ⟨[⟨"Fz", [Cell.num 0, Cell.num 1, Cell.num 2, Cell.num 3,
          Cell.num 4]⟩]⟩ (i * (2 : Int).toNat))) :=
  ⟨by decide, by decide,
    downsample_spec ⟨[⟨"Fz", [Cell.num 0, Cell.num 1, Cell.num 2, Cell.num 3, Cell.num 4]⟩]⟩
      2 5 (by decide) (by decide)⟩

/-- C5: on a nonempty table, the selected Time column is the first column
whose name contains the substring "time" (case-insensitively) when one
exists, and otherwise the first column of the table. -/
theorem find_time_col_first (df : DataFrame) (h : df.cols ≠ []) :
    ∃ tc, find_time_col df = some tc ∧
      ((∃ pre post, colNames df = pre ++ tc :: post ∧ timeLike tc = true ∧
          ∀ c ∈ pre, timeLike c = false) ∨
        ((∀ c ∈ colNames df, timeLike c = false) ∧ (colNames df).head? = some tc)) := by
  have hne : colNames df ≠ [] := by
    rw [colNames]
    simpa using h
  cases hfind : (colNames df).find? timeLike with
  | some c =>
    refine ⟨c, ?_, Or.inl ?_⟩
    · rw [find_time_col, hfind]
    · obtain ⟨pre, post, heq, hc, hpre⟩ := find?_decomp timeLike (colNames df) c hfind
      exact ⟨pre, post, heq, hc, hpre⟩
  | none =>
    refine ⟨(colNames df).head hne, ?_, Or.inr ⟨?_, ?_⟩⟩
    · rw [find_time_col, hfind, List.head?_eq_head hne]
    · intro c hc
      have := List.find?_eq_none.mp hfind c hc
      simpa using this
    · exact List.head?_eq_head hne

/-- Witness for `find_time_col_first` on the header `t, DateTime, Fz`
(the second column is the first with substring "time"). -/
theorem find_time_col_first_witness :
    (DataFrame.mk [⟨"t", []⟩, ⟨"DateTime", []⟩, ⟨"Fz", []⟩]).cols ≠ [] ∧
      ∃ tc, find_time_col ⟨[⟨"t", []⟩, ⟨"DateTime", []⟩, ⟨"Fz", []⟩]⟩ = some tc ∧
        ((∃ pre post, colNames ⟨[⟨"t", []⟩, ⟨"DateTime", []⟩, ⟨"Fz", []⟩]⟩ =
            pre ++ tc :: post ∧ timeLike tc = true ∧ ∀ c ∈ pre, timeLike c = false) ∨
          ((∀ c ∈ colNames ⟨[⟨"t", []⟩, ⟨"DateTime", []⟩, ⟨"Fz", []⟩]⟩, timeLike c = false) ∧
            (colNames ⟨[⟨"t", []⟩, ⟨"DateTime", []⟩, ⟨"Fz", []⟩]⟩).head? = some tc)) :=
  ⟨by decide, find_time_col_first ⟨[⟨"t", []⟩, ⟨"DateTime", []⟩, ⟨"Fz", []⟩]⟩ (by decide)⟩

theorem ignored_not_in_groups (df : DataFrame) (tc : String) (c : String)
    (h : c ∈ find_ignore_cols df) :
    c ∉ eegFinal df tc ∧ c ∉ ecgPruned df ∧ c ∉ cmPruned df := by
  refine ⟨?_, ?_, ?_⟩
  · intro hmem
    rw [eegFinal] at hmem
    by_cases hb : (eegPruned df).isEmpty
    · rw [if_pos hb] at hmem
      have := (List.mem_filter.mp hmem).2
      simp only [Bool.not_eq_true', Bool.or_eq_false_iff, decide_eq_false_iff_not] at this
      exact this.2 h
    · rw [if_neg hb] at hmem
      have := (List.mem_filter.mp hmem).2
      simp only [Bool.not_eq_true', decide_eq_false_iff_not] at this
      exact this h
  · intro hmem
    have := (List.mem_filter.mp hmem).2
    simp only [Bool.not_eq_true', decide_eq_false_iff_not] at this
    exact this h
  · intro hmem
    have := (List.mem_filter.mp hmem).2
    simp only [Bool.not_eq_true', decide_eq_false_iff_not] at this
    exact this h

/-- C4: a column matching an Ignore keyword is excluded from the final EEG
group (either branch, fallback included), the ECG group and the CommonMode
group, whatever other patterns its name matches. -/
theorem ignored_excluded (df : DataFrame) (tc : String) (c : String)
    (h : c ∈ find_ignore_cols df) :
    c ∉ eegFinal df tc ∧ c ∉ ecgPruned df ∧ c ∉ cmPruned df :=
  ignored_not_in_groups df tc c h

/-- Witness for `ignored_excluded`: the column "Fz event" whole-word-matches
both the EEG label `Fz` and the ignore keyword `event`, and lands in no group. -/
theorem ignored_excluded_witness :
    "Fz event" ∈ find_ignore_cols ⟨[⟨"Fz event", [Cell.num 1]⟩, ⟨"Cz", [Cell.num 2]⟩]⟩ ∧
      ("Fz event" ∉ eegFinal ⟨[⟨"Fz event", [Cell.num 1]⟩, ⟨"Cz", [Cell.num 2]⟩]⟩ "Cz" ∧
        "Fz event" ∉ ecgPruned ⟨[⟨"Fz event", [Cell.num 1]⟩, ⟨"Cz", [Cell.num 2]⟩]⟩ ∧
        "Fz event" ∉ cmPruned ⟨[⟨"Fz event", [Cell.num 1]⟩, ⟨"Cz", [Cell.num 2]⟩]⟩) :=
  ⟨by decide,
    ignored_excluded ⟨[⟨"Fz event", [Cell.num 1]⟩, ⟨"Cz", [Cell.num 2]⟩]⟩ "Cz" "Fz event"
      (by decide)⟩

/-- C7: once a time column is found, the run raises
`SystemExit("No plottable channels found.")` — non-zero exit, before any
output write — exactly when the final EEG, ECG and CommonMode groups are
all empty, and otherwise returns the built series (output written, exit
status 0). -/
theorem no_channels_exit (df : DataFrame) (d : Int) (tc : String)
    (htc : find_time_col df = some tc) :
    (eegFinal df tc = [] ∧ ecgPruned df = [] ∧ cmPruned df = [] →
      main_run df d = .error "No plottable channels found.") ∧
    (eegFinal df tc ≠ [] ∨ ecgPruned df ≠ [] ∨ cmPruned df ≠ [] →
      ∃ out, main_run df d = .ok out ∧ out ≠ []) := by
  rw [main_run, htc]
  simp only
  constructor
  · rintro ⟨h1, h2, h3⟩
    rw [buildSeries, h1, h2, h3]
    simp
  · intro hne
    rw [if_neg ?_]
    · exact ⟨_, rfl, by
        intro hc
        rw [buildSeries] at hc
        simp only [List.append_eq_nil, List.map_eq_nil_iff] at hc
        rcases hne with hne | hne | hne
        · exact hne hc.1.1
        · exact hne hc.1.2
        · exact hne hc.2⟩
    · intro hc
      rw [List.isEmpty_iff, buildSeries] at hc
      simp only [List.append_eq_nil, List.map_eq_nil_iff] at hc
      rcases hne with hne | hne | hne
      · exact hne hc.1.1
      · exact hne hc.1.2
      · exact hne hc.2

/-- Witness for `no_channels_exit`: a table whose only column is the
ignored "trigger" produces the fatal exit. -/
theorem no_channels_exit_witness :
    find_time_col ⟨[⟨"trigger", [Cell.num 1]⟩]⟩ = some "trigger" ∧
      ((eegFinal ⟨[⟨"trigger", [Cell.num 1]⟩]⟩ "trigger" = [] ∧
          ecgPruned ⟨[⟨"trigger", [Cell.num 1]⟩]⟩ = [] ∧
          cmPruned ⟨[⟨"trigger", [Cell.num 1]⟩]⟩ = [] →
        main_run ⟨[⟨"trigger", [Cell.num 1]⟩]⟩ 1 = .error "No plottable channels found.") ∧
      (eegFinal ⟨[⟨"trigger", [Cell.num 1]⟩]⟩ "trigger" ≠ [] ∨
          ecgPruned ⟨[⟨"trigger", [Cell.num 1]⟩]⟩ ≠ [] ∨
          cmPruned ⟨[⟨"trigger", [Cell.num 1]⟩]⟩ ≠ [] →
        ∃ out, main_run ⟨[⟨"trigger", [Cell.num 1]⟩]⟩ 1 = .ok out ∧ out ≠ [])) :=
  ⟨by decide, no_channels_exit ⟨[⟨"trigger", [Cell.num 1]⟩]⟩ 1 "trigger" (by decide)⟩

/-- C9: when the name-pattern EEG group (after removing ignored columns) is
empty, the final EEG group consists exactly of the numeric-dtype columns
other than the time column and the columns classified ECG, CommonMode or
Ignored; in particular it is nonempty as soon as one such column exists. -/
theorem eeg_fallback_spec (df : DataFrame) (tc : String) (c : String)
    (hemp : eegPruned df = []) :
    (c ∈ eegFinal df tc ↔
      c ∈ numericNames df ∧ c ≠ tc ∧ c ∉ ecgPruned df ∧ c ∉ cmPruned df ∧
        c ∉ find_ignore_cols df) ∧
    ((∃ x, x ∈ numericNames df ∧ x ≠ tc ∧ x ∉ ecgPruned df ∧ x ∉ cmPruned df ∧
        x ∉ find_ignore_cols df) → eegFinal df tc ≠ []) := by
  have hb : (eegPruned df).isEmpty = true := List.isEmpty_iff.mpr hemp
  have key : ∀ x : String, x ∈ eegFinal df tc ↔
      x ∈ numericNames df ∧ x ≠ tc ∧ x ∉ ecgPruned df ∧ x ∉ cmPruned df ∧
        x ∉ find_ignore_cols df := by
    intro x
    rw [eegFinal, if_pos hb, fallbackEEG, List.mem_filter]
    simp only [Bool.not_eq_true', Bool.or_eq_false_iff, decide_eq_false_iff_not]
    constructor
    · rintro ⟨hmem, ⟨⟨⟨h1, h2⟩, h3⟩, h4⟩⟩
      exact ⟨hmem, h1, h2, h3, h4⟩
    · rintro ⟨hmem, h1, h2, h3, h4⟩
      exact ⟨hmem, ⟨⟨⟨h1, h2⟩, h3⟩, h4⟩⟩
  refine ⟨key c, ?_⟩
  rintro ⟨x, hx⟩ hniln
  have hmem : x ∈ eegFinal df tc := (key x).mpr hx
  rw [hniln] at hmem
  exact (List.not_mem_nil x) hmem

/-- Witness for `eeg_fallback_spec`: header `t, sig` with numeric data —
no EEG name matches, and "sig" is picked up by the fallback. -/
theorem eeg_fallback_spec_witness :
    eegPruned ⟨[⟨"t", [Cell.num 1]⟩, ⟨"sig", [Cell.num 2]⟩]⟩ = [] ∧
      (("sig" ∈ eegFinal ⟨[⟨"t", [Cell.num 1]⟩, ⟨"sig", [Cell.num 2]⟩]⟩ "t" ↔
        "sig" ∈ numericNames ⟨[⟨"t", [Cell.num 1]⟩, ⟨"sig", [Cell.num 2]⟩]⟩ ∧
          "sig" ≠ "t" ∧ "sig" ∉ ecgPruned ⟨[⟨"t", [Cell.num 1]⟩, ⟨"sig", [Cell.num 2]⟩]⟩ ∧
          "sig" ∉ cmPruned ⟨[⟨"t", [Cell.num 1]⟩, ⟨"sig", [Cell.num 2]⟩]⟩ ∧
          "sig" ∉ find_ignore_cols ⟨[⟨"t", [Cell.num 1]⟩, ⟨"sig", [Cell.num 2]⟩]⟩) ∧
      ((∃ x, x ∈ numericNames ⟨[⟨"t", [Cell.num 1]⟩, ⟨"sig", [Cell.num 2]⟩]⟩ ∧
          x ≠ "t" ∧ x ∉ ecgPruned ⟨[⟨"t", [Cell.num 1]⟩, ⟨"sig", [Cell.num 2]⟩]⟩ ∧
          x ∉ cmPruned ⟨[⟨"t", [Cell.num 1]⟩, ⟨"sig", [Cell.num 2]⟩]⟩ ∧
          x ∉ find_ignore_cols ⟨[⟨"t", [Cell.num 1]⟩, ⟨"sig", [Cell.num 2]⟩]⟩) →
        eegFinal ⟨[⟨"t", [Cell.num 1]⟩, ⟨"sig", [Cell.num 2]⟩]⟩ "t" ≠ [])) :=
  ⟨by decide, eeg_fallback_spec ⟨[⟨"t", [Cell.num 1]⟩, ⟨"sig", [Cell.num 2]⟩]⟩ "t" "sig"
    (by decide)⟩

/-- C8: every trace built for the figure either sits on the primary axis
and carries an EEG column's raw cells under the bare column name, or sits
on the secondary axis and carries an ECG or CommonMode column's cells
coerced cellwise — a numeric cell divided by 1000, an unparseable cell
turned into the missing marker rather than an error — under the label
annotated " (mV)" (ECG, solid) or " (mV, CM)" (CommonMode, dotted). -/
theorem series_values_spec (df : DataFrame) (tc : String) (eeg ecg cm : List String)
    (s : Series) (hs : s ∈ buildSeries df tc eeg ecg cm) :
    (∀ q : ℚ, scaleMilli (Cell.num q) = Cell.num (q / 1000)) ∧
    scaleMilli Cell.na = Cell.na ∧
    (s.secondary = false →
      ∃ c ∈ eeg, s.label = c ∧ s.ys = getCol df c ∧ s.xs = getCol df tc ∧ s.dashed = false) ∧
    (s.secondary = true →
      ∃ c, ((c ∈ ecg ∧ s.label = c ++ " (mV)" ∧ s.dashed = false) ∨
            (c ∈ cm ∧ s.label = c ++ " (mV, CM)" ∧ s.dashed = true)) ∧
        s.ys = (getCol df c).map scaleMilli ∧ s.xs = getCol df tc) := by
  refine ⟨fun q => rfl, rfl, ?_, ?_⟩
  all_goals
    rw [buildSeries] at hs
    rcases List.mem_append.mp hs with hs' | hs'
    · rcases List.mem_append.mp hs' with he | he
      · obtain ⟨c, hc, rfl⟩ := List.mem_map.mp he
        intro hsec
        first
        | exact ⟨c, hc, rfl, rfl, rfl, rfl⟩
        | exact absurd hsec (by simp)
      · obtain ⟨c, hc, rfl⟩ := List.mem_map.mp he
        intro hsec
        first
        | exact ⟨c, Or.inl ⟨hc, rfl, rfl⟩, rfl, rfl⟩
        | exact absurd hsec (by simp)
    · obtain ⟨c, hc, rfl⟩ := List.mem_map.mp hs'
      intro hsec
      first
      | exact ⟨c, Or.inr ⟨hc, rfl, rfl⟩, rfl, rfl⟩
      | exact absurd hsec (by simp)

/-- Witness for `series_values_spec` at the ECG trace of a 2-column table
with one unparseable ECG cell. -/
theorem series_values_spec_witness :
    (Series.mk "X1 (mV)" [Cell.num 0, Cell.num 1] [Cell.num (4 / 1000), Cell.na] true false) ∈
        buildSeries ⟨[⟨"Time", [Cell.num 0, Cell.num 1]⟩, ⟨"X1", [Cell.num 4, Cell.na]⟩]⟩
          "Time" [] ["X1"] [] ∧
      ((∀ q : ℚ, scaleMilli (Cell.num q) = Cell.num (q / 1000)) ∧
       scaleMilli Cell.na = Cell.na ∧
       ((Series.mk "X1 (mV)" [Cell.num 0, Cell.num 1] [Cell.num (4 / 1000), Cell.na]
          true false).secondary = false →
         ∃ c ∈ ([] : List String),
           (Series.mk "X1 (mV)" [Cell.num 0, Cell.num 1] [Cell.num (4 / 1000), Cell.na]
              true false).label = c ∧
           (Series.mk "X1 (mV)" [Cell.num 0, Cell.num 1] [Cell.num (4 / 1000), Cell.na]
              true false).ys =
             getCol ⟨[⟨"Time", [Cell.num 0, Cell.num 1]⟩, ⟨"X1", [Cell.num 4, Cell.na]⟩]⟩ c ∧
           (Series.mk "X1 (mV)" [Cell.num 0, Cell.num 1] [Cell.num (4 / 1000), Cell.na]
              true false).xs =
             getCol ⟨[⟨"Time", [Cell.num 0, Cell.num 1]⟩, ⟨"X1", [Cell.num 4, Cell.na]⟩]⟩
               "Time" ∧
           (Series.mk "X1 (mV)" [Cell.num 0, Cell.num 1] [Cell.num (4 / 1000), Cell.na]
              true false).dashed = false) ∧
       ((Series.mk "X1 (mV)" [Cell.num 0, Cell.num 1] [Cell.num (4 / 1000), Cell.na]
          true false).secondary = true →
         ∃ c, ((c ∈ ["X1"] ∧
             (Series.mk "X1 (mV)" [Cell.num 0, Cell.num 1] [Cell.num (4 / 1000), Cell.na]
                true false).label = c ++ " (mV)" ∧
             (Series.mk "X1 (mV)" [Cell.num 0, Cell.num 1] [Cell.num (4 / 1000), Cell.na]
                true false).dashed = false) ∨
           (c ∈ ([] : List String) ∧
             (Series.mk "X1 (mV)" [Cell.num 0, Cell.num 1] [Cell.num (4 / 1000), Cell.na]
                true false).label = c ++ " (mV, CM)" ∧
             (Series.mk "X1 (mV)" [Cell.num 0, Cell.num 1] [Cell.num (4 / 1000), Cell.na]
                true false).dashed = true)) ∧
           (Series.mk "X1 (mV)" [Cell.num 0, Cell.num 1] [Cell.num (4 / 1000), Cell.na]
              true false).ys =
             (getCol ⟨[⟨"Time", [Cell.num 0, Cell.num 1]⟩, ⟨"X1", [Cell.num 4, Cell.na]⟩]⟩
               c).map scaleMilli ∧
           (Series.mk "X1 (mV)" [Cell.num 0, Cell.num 1] [Cell.num (4 / 1000), Cell.na]
              true false).xs =
             getCol ⟨[⟨"Time", [Cell.num 0, Cell.num 1]⟩, ⟨"X1", [Cell.num 4, Cell.na]⟩]⟩
               "Time")) :=
  ⟨List.mem_singleton.mpr rfl,
    series_values_spec ⟨[⟨"Time", [Cell.num 0, Cell.num 1]⟩, ⟨"X1", [Cell.num 4, Cell.na]⟩]⟩
      "Time" [] ["X1"] []
      (Series.mk "X1 (mV)" [Cell.num 0, Cell.num 1] [Cell.num (4 / 1000), Cell.na] true false)
      (List.mem_singleton.mpr rfl)⟩

/-- C2 counterexample: per the claim's boundary rule ("non-alphanumeric
characters or string edges") the CommonMode token `cm` occurs in the
column name "cm_1" — left string edge, right side bounded by the
non-alphanumeric underscore — yet the classifier does not put the column
in the CommonMode group, because the regex `\\b` of the source counts
underscore as a word character. -/
theorem whole_word_alnum_cex :
    specAlnumBounded (lc "cm") (lc "cm_1") = true ∧
      find_cm_cols ⟨[⟨"cm_1", [Cell.num 1]⟩]⟩ = [] := by decide

/-- C2 amended: the whole-word patterns (CommonMode `cm`, the ECG tokens,
the Ignore keywords, the 21 EEG labels) match exactly when the token
occurs in the (lowercased) name bounded on both sides by string edges or
non-word characters, where the word characters are the alphanumerics AND
the underscore; the token must not be a substring of a longer run of word
characters. -/
theorem whole_word_matching_amended (df : DataFrame) (c : String) :
    (c ∈ find_ecg_cols df ↔
      c ∈ colNames df ∧ ∃ t ∈ ecgToks, OccursWordBounded (lc t) (lc c)) ∧
    (c ∈ find_ignore_cols df ↔
      c ∈ colNames df ∧ ∃ t ∈ ignoreToks, OccursWordBounded (lc t) (lc c)) ∧
    (c ∈ find_eeg_cols df ↔
      c ∈ colNames df ∧ ∃ t ∈ EEG_NAMES, OccursWordBounded (lc t) (lc c)) ∧
    (wwTok "cm" c = true ↔ OccursWordBounded (lc "cm") (lc c)) := by
  have hww : ∀ t : String, wwTok t c = true ↔ OccursWordBounded (lc t) (lc c) :=
    fun t => wholeWordB_occ (lc t) (lc c)
  refine ⟨?_, ?_, ?_, hww "cm"⟩
  · rw [find_ecg_cols, List.mem_filter, List.any_eq_true]
    constructor
    · rintro ⟨hmem, t, ht, hw⟩
      exact ⟨hmem, t, ht, (hww t).mp hw⟩
    · rintro ⟨hmem, t, ht, hocc⟩
      exact ⟨hmem, t, ht, (hww t).mpr hocc⟩
  · rw [find_ignore_cols, List.mem_filter, List.any_eq_true]
    constructor
    · rintro ⟨hmem, t, ht, hw⟩
      exact ⟨hmem, t, ht, (hww t).mp hw⟩
    · rintro ⟨hmem, t, ht, hocc⟩
      exact ⟨hmem, t, ht, (hww t).mpr hocc⟩
  · rw [mem_find_eeg_cols]
    constructor
    · rintro ⟨hmem, t, ht, hw⟩
      exact ⟨hmem, t, ht, (hww t).mp hw⟩
    · rintro ⟨hmem, t, ht, hocc⟩
      exact ⟨hmem, t, ht, (hww t).mpr hocc⟩

/-- C3 counterexample: in the table whose single column is named "Cz x1"
that column is simultaneously the Time column (no name contains "time",
so the first column is Time), an EEG column (whole word `Cz`) and an ECG
column (whole word `x1`): the role groups are not pairwise disjoint and
the Time column is not excluded from the other groups. -/
theorem roles_disjoint_cex :
    find_time_col ⟨[⟨"Cz x1", [Cell.num 1]⟩]⟩ = some "Cz x1" ∧
      eegFinal ⟨[⟨"Cz x1", [Cell.num 1]⟩]⟩ "Cz x1" = ["Cz x1"] ∧
      ecgPruned ⟨[⟨"Cz x1", [Cell.num 1]⟩]⟩ = ["Cz x1"] := by decide

/-- C3 amended: on a nonempty table exactly one column is assigned Time
and it is one of the table's columns, and an Ignored column is in none of
the EEG, ECG and CommonMode groups; but the EEG, ECG and CommonMode
groups are not necessarily pairwise disjoint and may contain the Time
column. -/
theorem roles_partition_amended (df : DataFrame) (h : df.cols ≠ []) :
    (∃ tc, find_time_col df = some tc ∧ tc ∈ colNames df ∧
      ∀ tc', find_time_col df = some tc' → tc' = tc) ∧
    (∀ c ∈ find_ignore_cols df, ∀ tc,
      c ∉ eegFinal df tc ∧ c ∉ ecgPruned df ∧ c ∉ cmPruned df) := by
  constructor
  · cases hfind : (colNames df).find? timeLike with
    | some c0 =>
      have htc : find_time_col df = some c0 := by rw [find_time_col, hfind]
      obtain ⟨pre, post, heq, _, _⟩ := find?_decomp timeLike (colNames df) c0 hfind
      refine ⟨c0, htc, ?_, ?_⟩
      · rw [heq]
        exact List.mem_append.mpr (Or.inr (List.mem_cons_self c0 post))
      · intro tc' h'
        exact (Option.some.inj (htc.symm.trans h')).symm
    | none =>
      have hne : colNames df ≠ [] := by
        rw [colNames]
        simpa using h
      have htc : find_time_col df = some ((colNames df).head hne) := by
        rw [find_time_col, hfind, List.head?_eq_head hne]
      refine ⟨(colNames df).head hne, htc, List.head_mem hne, ?_⟩
      intro tc' h'
      exact (Option.some.inj (htc.symm.trans h')).symm
  · intro c hc tc
    exact ignored_not_in_groups df tc c hc

/-- Witness for `roles_partition_amended` on a one-column table. -/
theorem roles_partition_amended_witness :
    (DataFrame.mk [⟨"Pz", [Cell.num 3]⟩]).cols ≠ [] ∧
      ((∃ tc, find_time_col ⟨[⟨"Pz", [Cell.num 3]⟩]⟩ = some tc ∧
          tc ∈ colNames ⟨[⟨"Pz", [Cell.num 3]⟩]⟩ ∧
          ∀ tc', find_time_col ⟨[⟨"Pz", [Cell.num 3]⟩]⟩ = some tc' → tc' = tc) ∧
        (∀ c ∈ find_ignore_cols ⟨[⟨"Pz", [Cell.num 3]⟩]⟩, ∀ tc,
          c ∉ eegFinal ⟨[⟨"Pz", [Cell.num 3]⟩]⟩ tc ∧
            c ∉ ecgPruned ⟨[⟨"Pz", [Cell.num 3]⟩]⟩ ∧
            c ∉ cmPruned ⟨[⟨"Pz", [Cell.num 3]⟩]⟩)) :=
  ⟨by decide, roles_partition_amended ⟨[⟨"Pz", [Cell.num 3]⟩]⟩ (by decide)⟩

/-- C1 counterexample: on the header `Time,Fz,Cz,X1,CM1` with 10 numeric
rows the classifier's CommonMode group is empty — the regex `\\bcm\\b`
cannot match "CM1" because the digit 1 extends the word — so the claimed
assignment CommonMode=["CM1"] does not hold. -/
theorem scenario_cm1_cex :
    cmPruned ⟨[⟨"Time", List.replicate 10 (Cell.num 1)⟩,
      ⟨"Fz", List.replicate 10 (Cell.num 1)⟩,
      ⟨"Cz", List.replicate 10 (Cell.num 1)⟩,
      ⟨"X1", List.replicate 10 (Cell.num 1)⟩,
      ⟨"CM1", List.replicate 10 (Cell.num 1)⟩]⟩ = [] := by decide

set_option maxHeartbeats 2000000 in
/-- C1 amended: for the header `Time,Fz,Cz,X1,CM1` with 10 numeric rows
and downsample factor 1 the classifier assigns Time="Time",
EEG=["Fz","Cz"], ECG=["X1"] and an EMPTY CommonMode group ("CM1" stays
unclassified and unplotted); the run succeeds, the EEG series carry the
raw column values, and the ECG series carries the raw column values
divided by 1000. -/
theorem scenario_classification (t fz cz x1 cm1 : List ℚ) (df : DataFrame)
    (ht : t.length = 10) (hfz : fz.length = 10) (hcz : cz.length = 10)
    (hx1 : x1.length = 10) (hcm1 : cm1.length = 10)
    (hdf : df = ⟨[⟨"Time", t.map Cell.num⟩, ⟨"Fz", fz.map Cell.num⟩,
      ⟨"Cz", cz.map Cell.num⟩, ⟨"X1", x1.map Cell.num⟩, ⟨"CM1", cm1.map Cell.num⟩]⟩) :
    find_time_col df = some "Time" ∧
    eegFinal df "Time" = ["Fz", "Cz"] ∧
    ecgPruned df = ["X1"] ∧
    cmPruned df = [] ∧
    main_run df 1 = .ok
      [⟨"Fz", t.map Cell.num, fz.map Cell.num, false, false⟩,
       ⟨"Cz", t.map Cell.num, cz.map Cell.num, false, false⟩,
       ⟨"X1 (mV)", t.map Cell.num, x1.map (fun q => Cell.num (q / 1000)), true, false⟩] := by
  subst hdf
  refine ⟨rfl, rfl, rfl, rfl, ?_⟩
  have hfuse : (x1.map Cell.num).map scaleMilli = x1.map fun q => Cell.num (q / 1000) := by
    rw [List.map_map]
    rfl
  rw [← hfuse]
  rfl

/-- Witness for `scenario_classification` on concrete constant columns. -/
theorem scenario_classification_witness :
    (List.replicate 10 (0 : ℚ)).length = 10 ∧
      (List.replicate 10 (7 : ℚ)).length = 10 ∧
      (find_time_col ⟨[⟨"Time", (List.replicate 10 (0 : ℚ)).map Cell.num⟩,
          ⟨"Fz", (List.replicate 10 (7 : ℚ)).map Cell.num⟩,
          ⟨"Cz", (List.replicate 10 (7 : ℚ)).map Cell.num⟩,
          ⟨"X1", (List.replicate 10 (7 : ℚ)).map Cell.num⟩,
          ⟨"CM1", (List.replicate 10 (7 : ℚ)).map Cell.num⟩]⟩ = some "Time" ∧
        eegFinal ⟨[⟨"Time", (List.replicate 10 (0 : ℚ)).map Cell.num⟩,
          ⟨"Fz", (List.replicate 10 (7 : ℚ)).map Cell.num⟩,
          ⟨"Cz", (List.replicate 10 (7 : ℚ)).map Cell.num⟩,
          ⟨"X1", (List.replicate 10 (7 : ℚ)).map Cell.num⟩,
          ⟨"CM1", (List.replicate 10 (7 : ℚ)).map Cell.num⟩]⟩ "Time" = ["Fz", "Cz"] ∧
        ecgPruned ⟨[⟨"Time", (List.replicate 10 (0 : ℚ)).map Cell.num⟩,
          ⟨"Fz", (List.replicate 10 (7 : ℚ)).map Cell.num⟩,
          ⟨"Cz", (List.replicate 10 (7 : ℚ)).map Cell.num⟩,
          ⟨"X1", (List.replicate 10 (7 : ℚ)).map Cell.num⟩,
          ⟨"CM1", (List.replicate 10 (7 : ℚ)).map Cell.num⟩]⟩ = ["X1"] ∧
        cmPruned ⟨[⟨"Time", (List.replicate 10 (0 : ℚ)).map Cell.num⟩,
          ⟨"Fz", (List.replicate 10 (7 : ℚ)).map Cell.num⟩,
          ⟨"Cz", (List.replicate 10 (7 : ℚ)).map Cell.num⟩,
          ⟨"X1", (List.replicate 10 (7 : ℚ)).map Cell.num⟩,
          ⟨"CM1", (List.replicate 10 (7 : ℚ)).map Cell.num⟩]⟩ = [] ∧
        main_run ⟨[⟨"Time", (List.replicate 10 (0 : ℚ)).map Cell.num⟩,
          ⟨"Fz", (List.replicate 10 (7 : ℚ)).map Cell.num⟩,
          ⟨"Cz", (List.replicate 10 (7 : ℚ)).map Cell.num⟩,
          ⟨"X1", (List.replicate 10 (7 : ℚ)).map Cell.num⟩,
          ⟨"CM1", (List.replicate 10 (7 : ℚ)).map Cell.num⟩]⟩ 1 = .ok
          [⟨"Fz", (List.replicate 10 (0 : ℚ)).map Cell.num,
            (List.replicate 10 (7 : ℚ)).map Cell.num, false, false⟩,
           ⟨"Cz", (List.replicate 10 (0 : ℚ)).map Cell.num,
            (List.replicate 10 (7 : ℚ)).map Cell.num, false, false⟩,
           ⟨"X1 (mV)", (List.replicate 10 (0 : ℚ)).map Cell.num,
            (List.replicate 10 (7 : ℚ)).map (fun q => Cell.num (q / 1000)), true, false⟩]) :=
  ⟨by decide, by decide,
    scenario_classification (List.replicate 10 (0 : ℚ)) (List.replicate 10 (7 : ℚ))
      (List.replicate 10 (7 : ℚ)) (List.replicate 10 (7 : ℚ)) (List.replicate 10 (7 : ℚ))
      ⟨[⟨"Time", (List.replicate 10 (0 : ℚ)).map Cell.num⟩,
        ⟨"Fz", (List.replicate 10 (7 : ℚ)).map Cell.num⟩,
        ⟨"Cz", (List.replicate 10 (7 : ℚ)).map Cell.num⟩,
        ⟨"X1", (List.replicate 10 (7 : ℚ)).map Cell.num⟩,
        ⟨"CM1", (List.replicate 10 (7 : ℚ)).map Cell.num⟩]⟩
      (by decide) (by decide) (by decide) (by decide) (by decide) rfl⟩

end PlotEegEcg
